import Mathlib

/-!
Verification development for the skejj scheduling CLI.

The definitions below are a shallow embedding of the TypeScript sources:

* `src/schema.ts`   — the zod schemas (`stepSchema`, `scheduleSchema`, …)
  validating a raw template object.  Raw JSON numbers are modelled as `Rat`
  (JavaScript numbers on the inputs the schemas inspect), raw JSON strings as
  `String`, absent optional fields as `none`.  A zod parse is a function from
  the raw shape to `Except (List String) α`: zod collects every issue, so
  field results are combined by accumulating the error lists.
* `src/ai/integrity.ts` — `checkReferentialIntegrity`; a thrown `Error` is
  modelled as `some message`, a normal return as `none`.
* `src/engine.ts`   — the JS-to-Rust boundary.  The engine child process is
  not under `src/` (it is the Rust crate of the repository), so its observable
  behaviour is a parameter: a function from the request written to stdin to a
  `ProcOutcome`, the result of `spawnSync` (spawn error, or exit status with
  stdout, stderr, and the result of `JSON.parse` on stdout).
* `src/commands/make.ts` — parsing of `-r name=value` inventory overrides.
-/

/-! ## Validated data model (`z.infer<typeof scheduleSchema>`, src/schema.ts) -/

/-- Dependency kinds, `dependencyTypeValues` in src/schema.ts line 3. -/
inductive DependencyType where
  | FinishToStart
  | StartToStart
  | FinishToFinish
  | StartToFinish
deriving DecidableEq, Repr

/-- Timing policies, `timingPolicyValues` in src/schema.ts line 4. -/
inductive TimingPolicy where
  | Asap
  | Alap
deriving DecidableEq, Repr

/-- Resource kinds, `resourceKindValues` in src/schema.ts line 5. -/
inductive ResourceKind where
  | Equipment
  | People
  | Consumable
deriving DecidableEq, Repr

/-- Output of `stepDependencySchema`. -/
structure StepDependency where
  stepId : String
  dependencyType : DependencyType
deriving DecidableEq, Repr

/-- Output of `resourceNeedSchema`. -/
structure ResourceNeed where
  resourceId : String
  quantity : Rat
  minPeople : Option Rat
  maxPeople : Option Rat
deriving DecidableEq, Repr

/-- Output of `stepSchema`.  Note that `timingPolicy` is `optional` in the
source with no default, hence `Option TimingPolicy` here. -/
structure Step where
  id : String
  title : String
  description : Option String
  durationMins : Rat
  dependencies : List StepDependency
  trackId : Option String
  timingPolicy : Option TimingPolicy
  resourceNeeds : List ResourceNeed
deriving DecidableEq, Repr

/-- Output of `trackSchema`. -/
structure Track where
  id : String
  name : String
deriving DecidableEq, Repr

/-- Output of `resourceSchema`. -/
structure Resource where
  id : String
  name : String
  kind : ResourceKind
  capacity : Rat
  roles : List String
deriving DecidableEq, Repr

/-- Output of `timeConstraintSchema`: both fields independently optional. -/
structure TimeConstraint where
  startTime : Option String
  endTime : Option String
deriving DecidableEq, Repr

/-- Output of `scheduleSchema`: the `ScheduleInput` type of src/schema.ts. -/
structure ScheduleInput where
  id : String
  name : String
  description : Option String
  steps : List Step
  tracks : List Track
  resources : List Resource
  timeConstraint : Option TimeConstraint
  defaultNumPeople : Option Rat
deriving DecidableEq, Repr

/-! ## Raw input shapes

A raw object, as zod sees it after JSON/YAML parsing, restricted to the
structurally well-typed domain the claims quantify over: each field carries a
value of the expected JSON type, with `none` for an absent optional field.
Numbers are `Rat` so that the `int()` refinement is a real check. -/

structure RawStepDependency where
  stepId : String
  dependencyType : Option String
deriving DecidableEq, Repr

structure RawResourceNeed where
  resourceId : String
  quantity : Rat
  minPeople : Option Rat
  maxPeople : Option Rat
deriving DecidableEq, Repr

structure RawStep where
  id : String
  title : String
  description : Option String
  durationMins : Rat
  dependencies : Option (List RawStepDependency)
  trackId : Option String
  timingPolicy : Option String
  resourceNeeds : Option (List RawResourceNeed)
deriving DecidableEq, Repr

structure RawTrack where
  id : String
  name : String
deriving DecidableEq, Repr

structure RawResource where
  id : String
  name : String
  kind : String
  capacity : Rat
  roles : Option (List String)
deriving DecidableEq, Repr

structure RawTimeConstraint where
  startTime : Option String
  endTime : Option String
deriving DecidableEq, Repr

structure RawSchedule where
  id : String
  name : String
  description : Option String
  steps : List RawStep
  tracks : Option (List RawTrack)
  resources : Option (List RawResource)
  timeConstraint : Option RawTimeConstraint
  defaultNumPeople : Option Rat
deriving DecidableEq, Repr

/-! ## zod combinators -/

/-- Combine two field results the way zod combines issues: both error lists
are reported when both fields fail. -/
def accum2 {α β γ : Type} (a : Except (List String) α) (b : Except (List String) β)
    (f : α → β → γ) : Except (List String) γ :=
  match a, b with
  | .ok x, .ok y => .ok (f x y)
  | .error e, .ok _ => .error e
  | .ok _, .error e => .error e
  | .error e₁, .error e₂ => .error (e₁ ++ e₂)

/-- `z.string().min(1)`. -/
def zMin1 (s : String) : Except (List String) String :=
  if 1 ≤ s.length then .ok s
  else .error ["String must contain at least 1 character(s)"]

/-- `z.number().int().positive()`.  `int()` demands an integral value
(denominator 1); `positive()` demands a value strictly greater than 0. -/
def zIntPositive (q : Rat) : Except (List String) Rat :=
  if q.den = 1 then
    if 0 < q then .ok q else .error ["Number must be greater than 0"]
  else
    if 0 < q then .error ["Expected integer, received float"]
    else .error ["Expected integer, received float", "Number must be greater than 0"]

/-- `.optional()` around an inner schema. -/
def zOptional {α β : Type} (p : α → Except (List String) β) :
    Option α → Except (List String) (Option β)
  | none => .ok none
  | some x => (p x).map some

/-- `z.array(inner)`: every element is parsed; element issues accumulate. -/
def zArray {α β : Type} (p : α → Except (List String) β) :
    List α → Except (List String) (List β)
  | [] => .ok []
  | x :: xs => accum2 (p x) (zArray p xs) (· :: ·)

/-- `z.enum(dependencyTypeValues)`. -/
def parseDependencyType (s : String) : Except (List String) DependencyType :=
  if s = "FinishToStart" then .ok .FinishToStart
  else if s = "StartToStart" then .ok .StartToStart
  else if s = "FinishToFinish" then .ok .FinishToFinish
  else if s = "StartToFinish" then .ok .StartToFinish
  else .error ["Invalid enum value"]

/-- `z.enum(timingPolicyValues)`. -/
def parseTimingPolicy (s : String) : Except (List String) TimingPolicy :=
  if s = "Asap" then .ok .Asap
  else if s = "Alap" then .ok .Alap
  else .error ["Invalid enum value"]

/-- `z.enum(resourceKindValues)`. -/
def parseResourceKind (s : String) : Except (List String) ResourceKind :=
  if s = "Equipment" then .ok .Equipment
  else if s = "People" then .ok .People
  else if s = "Consumable" then .ok .Consumable
  else .error ["Invalid enum value"]

/-! ## The schemas of src/schema.ts as parse functions -/

/-- `stepDependencySchema` (src/schema.ts lines 7-10): `stepId` is a plain
string; `dependencyType` defaults to FinishToStart when absent. -/
def stepDependencySchema (r : RawStepDependency) : Except (List String) StepDependency :=
  match r.dependencyType with
  | none => .ok ⟨r.stepId, .FinishToStart⟩
  | some s => (parseDependencyType s).map (fun k => ⟨r.stepId, k⟩)

/-- `resourceNeedSchema` (src/schema.ts lines 12-17). -/
def resourceNeedSchema (r : RawResourceNeed) : Except (List String) ResourceNeed :=
  accum2 (zIntPositive r.quantity)
    (accum2 (zOptional zIntPositive r.minPeople) (zOptional zIntPositive r.maxPeople)
      (fun mn mx => (mn, mx)))
    (fun q mm => ⟨r.resourceId, q, mm.1, mm.2⟩)

/-- `stepSchema` (src/schema.ts lines 19-28).  `dependencies` and
`resourceNeeds` default to the empty array; `timingPolicy` is optional with
no default; `description` and `trackId` are optional plain strings. -/
def stepSchema (r : RawStep) : Except (List String) Step :=
  accum2 (zMin1 r.id)
    (accum2 (zMin1 r.title)
      (accum2 (zIntPositive r.durationMins)
        (accum2 (zArray stepDependencySchema (r.dependencies.getD []))
          (accum2 (zOptional parseTimingPolicy r.timingPolicy)
            (zArray resourceNeedSchema (r.resourceNeeds.getD []))
            (fun tp needs => (tp, needs)))
          (fun deps rest => (deps, rest)))
        (fun dur rest => (dur, rest)))
      (fun title rest => (title, rest)))
    (fun id rest =>
      ⟨id, rest.1, r.description, rest.2.1, rest.2.2.1, r.trackId,
        rest.2.2.2.1, rest.2.2.2.2⟩)

/-- `trackSchema` (src/schema.ts lines 30-33). -/
def trackSchema (r : RawTrack) : Except (List String) Track :=
  accum2 (zMin1 r.id) (zMin1 r.name) (fun i n => ⟨i, n⟩)

/-- `resourceSchema` (src/schema.ts lines 35-41): `roles` defaults to []. -/
def resourceSchema (r : RawResource) : Except (List String) Resource :=
  accum2 (zMin1 r.id)
    (accum2 (zMin1 r.name)
      (accum2 (parseResourceKind r.kind) (zIntPositive r.capacity)
        (fun k c => (k, c)))
      (fun n rest => (n, rest)))
    (fun i rest => ⟨i, rest.1, rest.2.1, rest.2.2, r.roles.getD []⟩)

/-- `timeConstraintSchema` (src/schema.ts lines 43-46): two independently
optional strings, no mutual-exclusion refinement. -/
def timeConstraintSchema (r : RawTimeConstraint) : Except (List String) TimeConstraint :=
  .ok ⟨r.startTime, r.endTime⟩

/-- The `steps` field of `scheduleSchema`:
`z.array(stepSchema).min(1)` with the custom one-step-minimum message. -/
def zStepsField (l : List RawStep) : Except (List String) (List Step) :=
  let minE : List String :=
    if 1 ≤ l.length then [] else ["At least one step is required"]
  match zArray stepSchema l with
  | .ok xs => if minE = [] then .ok xs else .error minE
  | .error es => .error (minE ++ es)

/-- `scheduleSchema` (src/schema.ts lines 48-57). -/
def scheduleSchema (r : RawSchedule) : Except (List String) ScheduleInput :=
  accum2 (zMin1 r.id)
    (accum2 (zMin1 r.name)
      (accum2 (zStepsField r.steps)
        (accum2 (zArray trackSchema (r.tracks.getD []))
          (accum2 (zArray resourceSchema (r.resources.getD []))
            (accum2 (zOptional timeConstraintSchema r.timeConstraint)
              (zOptional zIntPositive r.defaultNumPeople)
              (fun tc dnp => (tc, dnp)))
            (fun res rest => (res, rest)))
          (fun tracks rest => (tracks, rest)))
        (fun steps rest => (steps, rest)))
      (fun name rest => (name, rest)))
    (fun id rest =>
      ⟨id, rest.1, r.description, rest.2.1, rest.2.2.1, rest.2.2.2.1,
        rest.2.2.2.2.1, rest.2.2.2.2.2⟩)

/-! ## Referential integrity (src/ai/integrity.ts)

`checkReferentialIntegrity` throws on the first violation found; a thrown
`Error` is modelled as `some message`, a normal return as `none`. -/

/-- The first id in the list already seen (the `Set`-building loops of
src/ai/integrity.ts lines 14-29): `some x` when `x` is the first duplicate,
`none` when all ids are fresh relative to `seen`. -/
def firstDup : List String → List String → Option String
  | [], _ => none
  | x :: xs, seen => if x ∈ seen then some x else firstDup xs (x :: seen)

/-- The dependency-reference loop (src/ai/integrity.ts lines 31-40): the
first dependency whose `stepId` is not in the step-id set yields an error. -/
def depRefError (stepIds : List String) : List Step → Option String
  | [] => none
  | st :: rest =>
    match st.dependencies.find? (fun d => decide (d.stepId ∉ stepIds)) with
    | some d =>
        some ("Step \"" ++ st.id ++ "\" references unknown dependency stepId \""
          ++ d.stepId ++ "\"")
    | none => depRefError stepIds rest

/-- The resource-need loop (src/ai/integrity.ts lines 42-51). -/
def needRefError (resourceIds : List String) : List Step → Option String
  | [] => none
  | st :: rest =>
    match st.resourceNeeds.find? (fun n => decide (n.resourceId ∉ resourceIds)) with
    | some n =>
        some ("Step \"" ++ st.id ++ "\" references unknown resourceId \""
          ++ n.resourceId ++ "\"")
    | none => needRefError resourceIds rest

/-- `checkReferentialIntegrity` (src/ai/integrity.ts lines 12-52): duplicate
step ids, then duplicate resource ids, then dangling dependency `stepId`
references, then dangling resource-need `resourceId` references.  Tracks and
`trackId` are never inspected. -/
def checkReferentialIntegrity (s : ScheduleInput) : Option String :=
  match firstDup (s.steps.map Step.id) [] with
  | some x => some ("Duplicate step ID: \"" ++ x ++ "\"")
  | none =>
    match firstDup (s.resources.map Resource.id) [] with
    | some x => some ("Duplicate resource ID: \"" ++ x ++ "\"")
    | none =>
      match depRefError (s.steps.map Step.id) s.steps with
      | some m => some m
      | none => needRefError (s.resources.map Resource.id) s.steps

/-! ## Engine boundary (src/engine.ts)

The Rust engine binary is outside `src/`; its behaviour during one
invocation is a function from the request serialized to stdin to the outcome
`spawnSync` reports. -/

/-- Solved-step record (src/engine.ts lines 20-34). -/
structure AssignedResourceResult where
  resourceId : String
  quantityUsed : Rat
deriving DecidableEq, Repr

structure SolvedStepResult where
  stepId : String
  startOffsetMins : Rat
  endOffsetMins : Rat
  startTime : Option String
  endTime : Option String
  assignedResources : List AssignedResourceResult
  totalFloatMins : Rat
  isCritical : Bool
deriving DecidableEq, Repr

structure ScheduleSummaryResult where
  totalDurationMins : Rat
  criticalPathStepIds : List String
deriving DecidableEq, Repr

structure SolvedScheduleResult where
  templateId : String
  solvedSteps : List SolvedStepResult
  summary : ScheduleSummaryResult
  warnings : List String
deriving DecidableEq, Repr

/-- `ValidationResultData` (src/engine.ts lines 48-51). -/
structure ValidationResultData where
  errors : List String
  warnings : List String
deriving DecidableEq, Repr

/-- An inventory map, `Record<string, number>`. -/
def InventoryMap : Type := List (String × Rat)
deriving instance DecidableEq, Repr for InventoryMap

/-- `EngineRequest` (src/engine.ts lines 117-119).  `solveCmd` carries the
`inventory` field, `none` standing for JSON `null`; `validateCmd` has no
inventory field at all. -/
inductive EngineRequest where
  | solveCmd (template : ScheduleInput) (inventory : Option InventoryMap)
  | validateCmd (template : ScheduleInput)
deriving DecidableEq, Repr

/-- `EngineResponse<T>` (src/engine.ts lines 121-123). -/
inductive EngineResponse (T : Type) where
  | ok (data : T)
  | err (error : String)
deriving DecidableEq, Repr

/-- The observable outcome of `spawnSync` on the engine binary: either the
spawn itself failed (`result.error` set), or the process completed with an
exit status, raw stdout and stderr text, and the result of `JSON.parse` on
stdout (`none` when stdout is not valid JSON of the response shape). -/
inductive ProcOutcome (T : Type) where
  | spawnFailed (msg : String)
  | completed (status : Int) (stdoutRaw : String) (stderrRaw : String)
      (stdoutJson : Option (EngineResponse T))
deriving DecidableEq, Repr

/-- The spawn-failure message (src/engine.ts line 136). -/
def spawnErrMsg (m : String) : String :=
  "Failed to spawn skejj-engine: " ++ m

/-- The fallback chain of src/engine.ts line 140: trimmed stderr, else
trimmed stdout, else the text "unknown error"; JavaScript `||` skips empty
strings. -/
def errText (stdoutRaw stderrRaw : String) : String :=
  if stderrRaw.trim ≠ "" then stderrRaw.trim
  else if stdoutRaw.trim ≠ "" then stdoutRaw.trim
  else "unknown error"

/-- The non-zero-exit message (src/engine.ts line 141). -/
def exitErrMsg (status : Int) (stdoutRaw stderrRaw : String) : String :=
  "skejj-engine exited with code " ++ toString status ++ ": "
    ++ errText stdoutRaw stderrRaw

/-- The invalid-JSON message (src/engine.ts line 148):
`stdout?.slice(0, 200)`. -/
def invalidJsonMsg (stdoutRaw : String) : String :=
  "skejj-engine returned invalid JSON: " ++ stdoutRaw.take 200

/-- The engine-error message (src/engine.ts line 152). -/
def engineErrMsg (m : String) : String :=
  "skejj-engine error: " ++ m

/-- `callEngine` (src/engine.ts lines 125-156) applied to the outcome of the
spawned process: `throw new Error(msg)` is modelled as `Except.error msg`. -/
def callEngine {T : Type} (result : ProcOutcome T) : Except String T :=
  match result with
  | .spawnFailed m => .error (spawnErrMsg m)
  | .completed status stdoutRaw stderrRaw stdoutJson =>
    if status ≠ 0 then .error (exitErrMsg status stdoutRaw stderrRaw)
    else
      match stdoutJson with
      | none => .error (invalidJsonMsg stdoutRaw)
      | some (.err m) => .error (engineErrMsg m)
      | some (.ok d) => .ok d

/-- `solve` (src/engine.ts lines 169-178): builds the solve request with
`inventory ?? null` and calls the engine.  `engine` is the behaviour of the
spawned binary for this invocation. -/
def solve (engine : EngineRequest → ProcOutcome SolvedScheduleResult)
    (template : ScheduleInput) (inventory : Option InventoryMap) :
    Except String SolvedScheduleResult :=
  callEngine (engine (EngineRequest.solveCmd template inventory))

/-- `validate` (src/engine.ts lines 186-191): builds the validate request
(no inventory field) and calls the engine. -/
def validate (engine : EngineRequest → ProcOutcome ValidationResultData)
    (template : ScheduleInput) : Except String ValidationResultData :=
  callEngine (engine (EngineRequest.validateCmd template))

/-! ## Inventory overrides (src/commands/make.ts lines 47-120) -/

/-- One `-r` option value after splitting at the first `=`:
`malformed raw` when the raw string contains no `=` (line 67);
`pair name value` otherwise, where `value` is the result of
`Number(valueStr.trim())` — `none` models NaN, `some q` a finite number. -/
inductive RawOverride where
  | malformed (raw : String)
  | pair (name : String) (value : Option Rat)
deriving DecidableEq, Repr

/-- The JavaScript `toLowerCase()` on the ASCII names the command compares. -/
def jsToLower (s : String) : String := ⟨s.data.map Char.toLower⟩

/-- The JavaScript `trim()`: strip whitespace from both ends. -/
def jsTrim (s : String) : String :=
  ⟨((s.data.dropWhile Char.isWhitespace).reverse.dropWhile Char.isWhitespace).reverse⟩

/-- `Math.round` on a finite number: the floor of the value plus one half
(round half toward positive infinity), written on the reduced fraction so
that it evaluates; `jsRound_eq_floor_add_half` below certifies the
identity. -/
def jsRound (q : Rat) : Rat := (((2 * q.num + q.den) / (2 * (q.den : Int))) : Int)

/-- Lookup in `new Map(templateResources.map(r => [r.name.toLowerCase(), r]))`
(src/commands/make.ts lines 59-61): with duplicate lowercased names the last
entry wins. -/
def mapGet (resources : List Resource) (key : String) : Option Resource :=
  match resources with
  | [] => none
  | r :: rest =>
    match mapGet rest key with
    | some x => some x
    | none => if jsToLower r.name = key then some r else none

/-- Assignment `overrides[matched.name] = …` on a JS object: replace the
value of an existing key in place, else append. -/
def setKey : List (String × Rat) → String → Rat → List (String × Rat)
  | [], k, v => [(k, v)]
  | (k₁, v₁) :: rest, k, v =>
    if k₁ = k then (k₁, v) :: rest else (k₁, v₁) :: setKey rest k v

/-- The override-parsing loop of src/commands/make.ts lines 63-116.
`Except.error msg` models `console.error(msg); process.exit(1)` — the
command exits before `solve` is invoked.  The accepted value stored into the
overrides object is `Math.round(value)` (line 114). -/
def processOverrides (resources : List Resource) :
    List RawOverride → List (String × Rat) → Except String (List (String × Rat))
  | [], acc => .ok acc
  | .malformed raw :: _, _ =>
      .error ("Invalid resource override \"" ++ raw ++ "\". Expected format: name=value")
  | .pair name₀ value :: rest, acc =>
    let name := jsTrim name₀
    match value with
    | none => .error ("Invalid value for resource \"" ++ name ++ "\". Must be a number.")
    | some v =>
      if v < 0 then
        .error ("Invalid value for resource \"" ++ name ++ "\". Must be non-negative.")
      else if v = 0 then
        .error ("Resource \"" ++ name
          ++ "\" cannot be set to 0 (minimum available resources is 1).")
      else
        match mapGet resources (jsToLower name) with
        | none => .error ("Unknown resource \"" ++ name ++ "\".")
        | some matched =>
            processOverrides resources rest (setKey acc matched.name (jsRound v))

/-- The inventory finally passed to `solve` (src/commands/make.ts
lines 118-120): `undefined` (here `none`) when no override was given,
else the overrides object. -/
def makeInventory (resources : List Resource) (raws : List RawOverride) :
    Except String (Option InventoryMap) :=
  match processOverrides resources raws [] with
  | .error m => .error m
  | .ok ov => .ok (if ov.isEmpty then none else some ov)

/-! ## Concrete sample values used by witnesses and counterexamples -/

/-- A one-step validated template. -/
def stepEx : Step := ⟨"a", "A", none, 15, [], none, none, []⟩

def tEx : ScheduleInput := ⟨"t", "T", none, [stepEx], [], [], none, none⟩

/-- A raw template whose step omits every optional field. -/
def rawStepEx : RawStep := ⟨"a", "A", none, 15, none, none, none, none⟩

def rawEx : RawSchedule := ⟨"t", "T", none, [rawStepEx], none, none, none, none⟩

/-- A raw template with an empty steps array. -/
def rawEmptySteps : RawSchedule := ⟨"t", "T", none, [], none, none, none, none⟩

/-- A two-step template with one dependency and one resource need, all
references valid. -/
def sampleSched : ScheduleInput :=
  ⟨"t", "T", none,
    [⟨"a", "A", none, 15, [], none, none, [⟨"r1", 2, none, none⟩]⟩,
     ⟨"b", "B", none, 30, [⟨"a", .FinishToStart⟩], none, none, []⟩],
    [], [⟨"r1", "Oven", .Equipment, 2, []⟩], none, none⟩

/-- A raw template carrying duplicate track ids and a step whose trackId
references no declared track. -/
def rawC6 : RawSchedule :=
  ⟨"t", "T", none, [⟨"a", "A", none, 15, none, some "ghost", none, none⟩],
    some [⟨"t1", "X"⟩, ⟨"t1", "Y"⟩], none, none, none⟩

def tC6 : ScheduleInput :=
  ⟨"t", "T", none, [⟨"a", "A", none, 15, [], some "ghost", none, []⟩],
    [⟨"t1", "X"⟩, ⟨"t1", "Y"⟩], [], none, none⟩

/-- A raw template whose timeConstraint carries both startTime and endTime. -/
def rawC5 : RawSchedule :=
  ⟨"t", "T", none, [rawStepEx], none, none,
    some ⟨some "2026-03-01T09:00", some "2026-03-01T19:00"⟩, none⟩

def tC5 : ScheduleInput :=
  ⟨"t", "T", none, [stepEx], [], [],
    some ⟨some "2026-03-01T09:00", some "2026-03-01T19:00"⟩, none⟩

/-- A raw resource and a raw template declaring it. -/
def rawResEx : RawResource := ⟨"r1", "Oven", "Equipment", 2, none⟩

def rawC9 : RawSchedule := ⟨"t", "T", none, [rawStepEx], none, some [rawResEx], none, none⟩

def tC9 : ScheduleInput :=
  ⟨"t", "T", none, [stepEx], [], [⟨"r1", "Oven", .Equipment, 2, []⟩], none, none⟩

/-- A declared resource named Oven, as the make command sees it. -/
def ovenRes : Resource := ⟨"r1", "Oven", .Equipment, 2, []⟩

/-- A fixed successful engine outcome. -/
def procOk : ProcOutcome SolvedScheduleResult :=
  .completed 0 "" "" (some (.ok ⟨"t", [], ⟨0, []⟩, []⟩))

/-- An engine behaviour answering every request with `procOk`. -/
def engineA : EngineRequest → ProcOutcome SolvedScheduleResult := fun _ => procOk

/-- An engine behaviour agreeing with `engineA` on solve requests only. -/
def engineB : EngineRequest → ProcOutcome SolvedScheduleResult := fun r =>
  match r with
  | .solveCmd _ _ => procOk
  | .validateCmd _ => .spawnFailed "unreachable for solve"

/-! ## Generic lemmas about the zod combinators -/

/-- Whether a parse succeeded. -/
def isSuccess {α : Type} : Except (List String) α → Bool
  | .ok _ => true
  | .error _ => false

/-- The issue list of a failed parse. -/
def errList {α : Type} : Except (List String) α → List String
  | .ok _ => []
  | .error es => es

theorem accum2_ok_iff {α β γ : Type} {a : Except (List String) α}
    {b : Except (List String) β} {f : α → β → γ} {c : γ} :
    accum2 a b f = .ok c ↔ ∃ x y, a = .ok x ∧ b = .ok y ∧ f x y = c := by
  cases a <;> cases b <;> simp [accum2]

theorem isSuccess_accum2 {α β γ : Type} (a : Except (List String) α)
    (b : Except (List String) β) (f : α → β → γ) :
    isSuccess (accum2 a b f) = (isSuccess a && isSuccess b) := by
  cases a <;> cases b <;> rfl

theorem accum2_propagate_left {α β γ : Type} {a : Except (List String) α}
    {b : Except (List String) β} {f : α → β → γ} {m : String}
    (h : isSuccess a = false ∧ m ∈ errList a) :
    isSuccess (accum2 a b f) = false ∧ m ∈ errList (accum2 a b f) := by
  cases a <;> cases b <;> simp_all [accum2, isSuccess, errList]

theorem accum2_propagate_right {α β γ : Type} {a : Except (List String) α}
    {b : Except (List String) β} {f : α → β → γ} {m : String}
    (h : isSuccess b = false ∧ m ∈ errList b) :
    isSuccess (accum2 a b f) = false ∧ m ∈ errList (accum2 a b f) := by
  cases a <;> cases b <;> simp_all [accum2, isSuccess, errList]

theorem zMin1_ok_iff {s t : String} : zMin1 s = .ok t ↔ 1 ≤ s.length ∧ t = s := by
  unfold zMin1; split <;> simp_all [eq_comm]

theorem zIntPositive_ok_iff {q x : Rat} :
    zIntPositive q = .ok x ↔ (q.den = 1 ∧ 0 < q) ∧ x = q := by
  unfold zIntPositive
  by_cases h₁ : q.den = 1 <;> by_cases h₂ : 0 < q <;>
    simp [h₁, h₂, eq_comm]

theorem zArray_ok_forall₂ {α β : Type} {p : α → Except (List String) β} :
    ∀ {l : List α} {l' : List β}, zArray p l = .ok l' →
      List.Forall₂ (fun a b => p a = .ok b) l l' := by
  intro l
  induction l with
  | nil =>
    intro l' h
    simp only [zArray] at h
    cases h
    exact List.Forall₂.nil
  | cons x xs ih =>
    intro l' h
    simp only [zArray] at h
    rcases accum2_ok_iff.mp h with ⟨y, ys, hy, hys, hc⟩
    subst hc
    exact List.Forall₂.cons hy (ih hys)

theorem zArray_ok_mem {α β : Type} {p : α → Except (List String) β} :
    ∀ {l : List α} {l' : List β}, zArray p l = .ok l' →
      ∀ a ∈ l, ∃ b, p a = .ok b := by
  intro l
  induction l with
  | nil => intro l' _ a ha; cases ha
  | cons x xs ih =>
    intro l' h a ha
    simp only [zArray] at h
    rcases accum2_ok_iff.mp h with ⟨y, ys, hy, hys, _⟩
    rcases List.mem_cons.mp ha with rfl | ha'
    · exact ⟨y, hy⟩
    · exact ih hys a ha'

/-- A value with denominator 1 that is positive is at least 1. -/
theorem one_le_of_int_pos {q : Rat} (hden : q.den = 1) (hpos : 0 < q) : 1 ≤ q := by
  have hnum : (1 : ℤ) ≤ q.num := Rat.num_pos.mpr hpos
  have hq : (q.num : ℚ) = q := by
    have h := Rat.num_div_den q
    rw [hden] at h
    simpa using h
  calc (1 : ℚ) = ((1 : ℤ) : ℚ) := by norm_num
    _ ≤ (q.num : ℚ) := by exact_mod_cast hnum
    _ = q := hq

/-- Certificate that jsRound computes the floor of its argument plus one
half, the behaviour of Math.round on finite numbers. -/
theorem jsRound_eq_floor_add_half (q : ℚ) : jsRound q = ((⌊q + 1/2⌋ : ℤ) : ℚ) := by
  unfold jsRound
  congr 1
  have hd : ((q.den : ℚ)) ≠ 0 := by
    have h0 := q.den_nz
    exact_mod_cast h0
  have hq : q * (q.den : ℚ) = (q.num : ℚ) := by
    nth_rewrite 1 [← Rat.num_div_den q]
    field_simp
  have hne : (((2 * q.den : ℕ)) : ℚ) ≠ 0 := by
    have h0 : (2 * q.den : ℕ) ≠ 0 := Nat.mul_ne_zero (by norm_num) q.den_nz
    exact_mod_cast h0
  have h2 : q + 1/2 = (((2 * q.num + (q.den : ℤ)) : ℤ) : ℚ) / (((2 * q.den : ℕ)) : ℚ) := by
    rw [eq_div_iff hne]
    push_cast
    linear_combination 2 * hq
  rw [h2, Rat.floor_intCast_div_natCast]
  norm_cast

/-! ## Lemmas about the integrity checker -/

theorem firstDup_eq_none (l : List String) : ∀ seen,
    firstDup l seen = none ↔ l.Nodup ∧ ∀ x ∈ l, x ∉ seen := by
  induction l with
  | nil => intro seen; simp [firstDup]
  | cons x xs ih =>
    intro seen
    by_cases hx : x ∈ seen
    · simp only [firstDup, if_pos hx]
      constructor
      · intro h; exact absurd h (by simp)
      · rintro ⟨-, h⟩
        exact absurd hx (h x (List.mem_cons_self x xs))
    · simp only [firstDup, if_neg hx]
      rw [ih (x :: seen)]
      constructor
      · rintro ⟨hnd, hall⟩
        refine ⟨List.nodup_cons.mpr ⟨?_, hnd⟩, ?_⟩
        · intro hxxs
          exact (hall x hxxs) (List.mem_cons_self x seen)
        · intro y hy
          rcases List.mem_cons.mp hy with rfl | hy'
          · exact hx
          · intro hys
            exact (hall y hy') (List.mem_cons.mpr (Or.inr hys))
      · rintro ⟨hnd, hall⟩
        rcases List.nodup_cons.mp hnd with ⟨hxnot, hnd'⟩
        refine ⟨hnd', ?_⟩
        intro y hy hymem
        rcases List.mem_cons.mp hymem with rfl | hys
        · exact hxnot hy
        · exact (hall y (List.mem_cons.mpr (Or.inr hy))) hys

theorem firstDup_nil_iff (l : List String) : firstDup l [] = none ↔ l.Nodup := by
  rw [firstDup_eq_none]
  simp

theorem depRefError_eq_none (ids : List String) (l : List Step) :
    depRefError ids l = none ↔ ∀ st ∈ l, ∀ d ∈ st.dependencies, d.stepId ∈ ids := by
  induction l with
  | nil => simp [depRefError]
  | cons st rest ih =>
    cases hf : st.dependencies.find? (fun d => decide (d.stepId ∉ ids)) with
    | some d =>
      simp only [depRefError, hf]
      constructor
      · intro h; exact absurd h (by simp)
      · intro h
        have hd := List.find?_some hf
        have hdmem := List.mem_of_find?_eq_some hf
        exact absurd (h st (List.mem_cons_self st rest) d hdmem) (of_decide_eq_true hd)
    | none =>
      simp only [depRefError, hf, ih]
      constructor
      · intro h s hs d hd
        rcases List.mem_cons.mp hs with rfl | hs'
        · have := List.find?_eq_none.mp hf d hd
          simpa using this
        · exact h s hs' d hd
      · intro h s hs d hd
        exact h s (List.mem_cons.mpr (Or.inr hs)) d hd

theorem needRefError_eq_none (ids : List String) (l : List Step) :
    needRefError ids l = none ↔ ∀ st ∈ l, ∀ n ∈ st.resourceNeeds, n.resourceId ∈ ids := by
  induction l with
  | nil => simp [needRefError]
  | cons st rest ih =>
    cases hf : st.resourceNeeds.find? (fun n => decide (n.resourceId ∉ ids)) with
    | some n =>
      simp only [needRefError, hf]
      constructor
      · intro h; exact absurd h (by simp)
      · intro h
        have hd := List.find?_some hf
        have hdmem := List.mem_of_find?_eq_some hf
        exact absurd (h st (List.mem_cons_self st rest) n hdmem) (of_decide_eq_true hd)
    | none =>
      simp only [needRefError, hf, ih]
      constructor
      · intro h s hs n hn
        rcases List.mem_cons.mp hs with rfl | hs'
        · have := List.find?_eq_none.mp hf n hn
          simpa using this
        · exact h s hs' n hn
      · intro h s hs n hn
        exact h s (List.mem_cons.mpr (Or.inr hs)) n hn

/-! ## Inversion lemmas for the schema parsers -/

theorem stepDependencySchema_default {rd : RawStepDependency} {pd : StepDependency}
    (h : stepDependencySchema rd = .ok pd) :
    pd.stepId = rd.stepId ∧
    (rd.dependencyType = none → pd.dependencyType = DependencyType.FinishToStart) := by
  cases hdt : rd.dependencyType with
  | none =>
    have h' : (Except.ok (⟨rd.stepId, DependencyType.FinishToStart⟩ : StepDependency) :
          Except (List String) StepDependency)
        = Except.ok pd := by rw [stepDependencySchema, hdt] at h; exact h
    cases h'
    exact ⟨rfl, fun _ => rfl⟩
  | some s =>
    have h' : Except.map (fun k => (⟨rd.stepId, k⟩ : StepDependency)) (parseDependencyType s)
        = Except.ok pd := by rw [stepDependencySchema, hdt] at h; exact h
    cases hp : parseDependencyType s with
    | ok k =>
      rw [hp] at h'
      cases h'
      exact ⟨rfl, fun hc => nomatch hc⟩
    | error e => rw [hp] at h'; cases h'

theorem resourceNeedSchema_ok_elim {r : RawResourceNeed} {n : ResourceNeed}
    (h : resourceNeedSchema r = .ok n) :
    (r.quantity.den = 1 ∧ 0 < r.quantity) ∧
    n.resourceId = r.resourceId ∧ n.quantity = r.quantity := by
  unfold resourceNeedSchema at h
  rcases accum2_ok_iff.mp h with ⟨q, mm, hq, _, hn⟩
  rcases zIntPositive_ok_iff.mp hq with ⟨hb, rfl⟩
  subst hn
  exact ⟨hb, rfl, rfl⟩

theorem stepSchema_ok_elim {r : RawStep} {s : Step} (h : stepSchema r = .ok s) :
    (1 ≤ r.id.length ∧ 1 ≤ r.title.length ∧
      r.durationMins.den = 1 ∧ 0 < r.durationMins) ∧
    (s.id = r.id ∧ s.title = r.title ∧ s.description = r.description ∧
      s.durationMins = r.durationMins ∧ s.trackId = r.trackId) ∧
    zArray stepDependencySchema (r.dependencies.getD []) = .ok s.dependencies ∧
    zOptional parseTimingPolicy r.timingPolicy = .ok s.timingPolicy ∧
    zArray resourceNeedSchema (r.resourceNeeds.getD []) = .ok s.resourceNeeds := by
  unfold stepSchema at h
  rcases accum2_ok_iff.mp h with ⟨i, rest, hi, hrest, hs⟩
  rcases accum2_ok_iff.mp hrest with ⟨ti, rest₂, hti, hrest₂, rfl⟩
  rcases accum2_ok_iff.mp hrest₂ with ⟨du, rest₃, hdu, hrest₃, rfl⟩
  rcases accum2_ok_iff.mp hrest₃ with ⟨deps, rest₄, hdeps, hrest₄, rfl⟩
  rcases accum2_ok_iff.mp hrest₄ with ⟨tp, needs, htp, hneeds, rfl⟩
  rcases zMin1_ok_iff.mp hi with ⟨hil, rfl⟩
  rcases zMin1_ok_iff.mp hti with ⟨htl, rfl⟩
  rcases zIntPositive_ok_iff.mp hdu with ⟨hdb, rfl⟩
  subst hs
  exact ⟨⟨hil, htl, hdb⟩, ⟨rfl, rfl, rfl, rfl, rfl⟩, hdeps, htp, hneeds⟩

theorem resourceSchema_ok_elim {r : RawResource} {x : Resource}
    (h : resourceSchema r = .ok x) :
    (1 ≤ r.id.length ∧ 1 ≤ r.name.length ∧
      r.capacity.den = 1 ∧ 0 < r.capacity) ∧
    (x.id = r.id ∧ x.name = r.name ∧ x.capacity = r.capacity ∧
      x.roles = r.roles.getD []) := by
  unfold resourceSchema at h
  rcases accum2_ok_iff.mp h with ⟨i, rest, hi, hrest, hx⟩
  rcases accum2_ok_iff.mp hrest with ⟨nm, rest₂, hnm, hrest₂, rfl⟩
  rcases accum2_ok_iff.mp hrest₂ with ⟨k, c, _, hc, rfl⟩
  rcases zMin1_ok_iff.mp hi with ⟨hil, rfl⟩
  rcases zMin1_ok_iff.mp hnm with ⟨hnl, rfl⟩
  rcases zIntPositive_ok_iff.mp hc with ⟨hcb, rfl⟩
  subst hx
  exact ⟨⟨hil, hnl, hcb⟩, rfl, rfl, rfl, rfl⟩

theorem zStepsField_ok_elim {l : List RawStep} {xs : List Step}
    (h : zStepsField l = .ok xs) :
    1 ≤ l.length ∧ zArray stepSchema l = .ok xs := by
  unfold zStepsField at h
  by_cases hlen : 1 ≤ l.length
  · refine ⟨hlen, ?_⟩
    rw [if_pos hlen] at h
    cases hz : zArray stepSchema l with
    | ok ys => rw [hz] at h; simpa using h
    | error es => rw [hz] at h; cases h
  · rw [if_neg hlen] at h
    cases hz : zArray stepSchema l with
    | ok ys => rw [hz] at h; simp at h
    | error es => rw [hz] at h; cases h

theorem scheduleSchema_ok_elim {r : RawSchedule} {s : ScheduleInput}
    (h : scheduleSchema r = .ok s) :
    (1 ≤ r.id.length ∧ 1 ≤ r.name.length) ∧
    (s.id = r.id ∧ s.name = r.name ∧ s.description = r.description) ∧
    zStepsField r.steps = .ok s.steps ∧
    zArray trackSchema (r.tracks.getD []) = .ok s.tracks ∧
    zArray resourceSchema (r.resources.getD []) = .ok s.resources ∧
    zOptional timeConstraintSchema r.timeConstraint = .ok s.timeConstraint ∧
    zOptional zIntPositive r.defaultNumPeople = .ok s.defaultNumPeople := by
  unfold scheduleSchema at h
  rcases accum2_ok_iff.mp h with ⟨i, rest, hi, hrest, hs⟩
  rcases accum2_ok_iff.mp hrest with ⟨nm, rest₂, hnm, hrest₂, rfl⟩
  rcases accum2_ok_iff.mp hrest₂ with ⟨steps, rest₃, hsteps, hrest₃, rfl⟩
  rcases accum2_ok_iff.mp hrest₃ with ⟨tracks, rest₄, htracks, hrest₄, rfl⟩
  rcases accum2_ok_iff.mp hrest₄ with ⟨res, rest₅, hres, hrest₅, rfl⟩
  rcases accum2_ok_iff.mp hrest₅ with ⟨tc, dnp, htc, hdnp, rfl⟩
  rcases zMin1_ok_iff.mp hi with ⟨hil, rfl⟩
  rcases zMin1_ok_iff.mp hnm with ⟨hnl, rfl⟩
  subst hs
  exact ⟨⟨hil, hnl⟩, ⟨rfl, rfl, rfl⟩, hsteps, htracks, hres, htc, hdnp⟩

/-! ## Invariance of the integrity checker under track data -/

theorem depRefError_map (g : Step → Option String) (ids : List String) :
    ∀ l : List Step,
      depRefError ids (l.map (fun st => { st with trackId := g st })) = depRefError ids l := by
  intro l
  induction l with
  | nil => rfl
  | cons st rest ih =>
    have hL : depRefError ids ((st :: rest).map (fun st => { st with trackId := g st }))
        = match st.dependencies.find? (fun d => decide (d.stepId ∉ ids)) with
          | some d => some ("Step \"" ++ st.id ++ "\" references unknown dependency stepId \""
              ++ d.stepId ++ "\"")
          | none => depRefError ids (rest.map (fun st => { st with trackId := g st })) := rfl
    have hR : depRefError ids (st :: rest)
        = match st.dependencies.find? (fun d => decide (d.stepId ∉ ids)) with
          | some d => some ("Step \"" ++ st.id ++ "\" references unknown dependency stepId \""
              ++ d.stepId ++ "\"")
          | none => depRefError ids rest := rfl
    rw [hL, hR]
    cases st.dependencies.find? (fun d => decide (d.stepId ∉ ids)) <;> simp [ih]

theorem needRefError_map (g : Step → Option String) (ids : List String) :
    ∀ l : List Step,
      needRefError ids (l.map (fun st => { st with trackId := g st })) = needRefError ids l := by
  intro l
  induction l with
  | nil => rfl
  | cons st rest ih =>
    have hL : needRefError ids ((st :: rest).map (fun st => { st with trackId := g st }))
        = match st.resourceNeeds.find? (fun n => decide (n.resourceId ∉ ids)) with
          | some n => some ("Step \"" ++ st.id ++ "\" references unknown resourceId \""
              ++ n.resourceId ++ "\"")
          | none => needRefError ids (rest.map (fun st => { st with trackId := g st })) := rfl
    have hR : needRefError ids (st :: rest)
        = match st.resourceNeeds.find? (fun n => decide (n.resourceId ∉ ids)) with
          | some n => some ("Step \"" ++ st.id ++ "\" references unknown resourceId \""
              ++ n.resourceId ++ "\"")
          | none => needRefError ids rest := rfl
    rw [hL, hR]
    cases st.resourceNeeds.find? (fun n => decide (n.resourceId ∉ ids)) <;> simp [ih]

/-! ## Claim theorems -/

/-- C7: checkReferentialIntegrity returns without throwing exactly when all
step ids are distinct, all resource ids are distinct, every dependency
stepId references a declared step, and every resource need resourceId
references a declared resource; equivalently, it throws an error if and
only if one of those four invariants is violated. -/
theorem checkReferentialIntegrity_none_iff (s : ScheduleInput) :
    checkReferentialIntegrity s = none ↔
      (s.steps.map Step.id).Nodup ∧ (s.resources.map Resource.id).Nodup ∧
      (∀ st ∈ s.steps, ∀ d ∈ st.dependencies, d.stepId ∈ s.steps.map Step.id) ∧
      (∀ st ∈ s.steps, ∀ n ∈ st.resourceNeeds, n.resourceId ∈ s.resources.map Resource.id) := by
  have key : checkReferentialIntegrity s = none ↔
      (firstDup (s.steps.map Step.id) [] = none ∧
       firstDup (s.resources.map Resource.id) [] = none ∧
       depRefError (s.steps.map Step.id) s.steps = none ∧
       needRefError (s.resources.map Resource.id) s.steps = none) := by
    unfold checkReferentialIntegrity
    cases firstDup (s.steps.map Step.id) [] <;>
      cases firstDup (s.resources.map Resource.id) [] <;>
        cases depRefError (s.steps.map Step.id) s.steps <;> simp
  rw [key, firstDup_nil_iff, firstDup_nil_iff, depRefError_eq_none, needRefError_eq_none]

/-- C7 witness: a concrete well-formed schedule passes the checker. -/
theorem checkReferentialIntegrity_none_iff_witness :
    checkReferentialIntegrity sampleSched = none :=
  (checkReferentialIntegrity_none_iff sampleSched).mpr (by decide)

/-- C6 amended: neither the schema nor checkReferentialIntegrity enforces the
track invariants.  checkReferentialIntegrity never inspects the tracks list
or any step trackId: replacing them arbitrarily does not change its result. -/
theorem checkReferentialIntegrity_ignores_tracks (s : ScheduleInput)
    (ts : List Track) (g : Step → Option String) :
    checkReferentialIntegrity
      { s with tracks := ts,
               steps := s.steps.map (fun st => { st with trackId := g st }) }
      = checkReferentialIntegrity s := by
  have hids : ((s.steps.map (fun st => { st with trackId := g st })).map Step.id)
      = s.steps.map Step.id := by
    rw [List.map_map]
    rfl
  unfold checkReferentialIntegrity
  simp only [hids, depRefError_map, needRefError_map]

/-- C6 witness: a concrete instance of the invariance equation. -/
theorem checkReferentialIntegrity_ignores_tracks_witness :
    checkReferentialIntegrity
      { sampleSched with
          tracks := [⟨"z", "Z"⟩],
          steps := sampleSched.steps.map (fun st => { st with trackId := some "ghost" }) }
      = checkReferentialIntegrity sampleSched :=
  checkReferentialIntegrity_ignores_tracks sampleSched [⟨"z", "Z"⟩] (fun _ => some "ghost")

/-- C6 counterexample: a template with duplicate track ids and a dangling
step trackId is accepted by the schema and by checkReferentialIntegrity. -/
theorem track_invariants_not_enforced :
    scheduleSchema rawC6 = Except.ok tC6 ∧
    checkReferentialIntegrity tC6 = none ∧
    tC6.tracks.map Track.id = ["t1", "t1"] ∧
    tC6.steps.map Step.trackId = [some "ghost"] :=
  ⟨rfl, rfl, rfl, rfl⟩

/-- C1 counterexample: validate does throw.  When the spawn of the engine
binary fails, validate raises an error instead of returning a diagnostics
record, refuting the claim that it never throws for every outcome of the
engine invocation. -/
theorem validate_throws_on_spawn_failure :
    validate (fun _ => ProcOutcome.spawnFailed "ENOENT") tEx
      = Except.error "Failed to spawn skejj-engine: ENOENT" := rfl

/-- C1 amended: validate returns the structured diagnostics result only when
the engine process exits with code zero and its stdout parses as an ok
response; on spawn failure, non-zero exit, unparseable stdout, or an
ok-false response it throws an Error carrying the diagnostic text. -/
theorem validate_outcomes (e : EngineRequest → ProcOutcome ValidationResultData)
    (t : ScheduleInput) :
    (∀ m, e (EngineRequest.validateCmd t) = .spawnFailed m →
      validate e t = .error (spawnErrMsg m)) ∧
    (∀ st out sd j, e (EngineRequest.validateCmd t) = .completed st out sd j → st ≠ 0 →
      validate e t = .error (exitErrMsg st out sd)) ∧
    (∀ out sd, e (EngineRequest.validateCmd t) = .completed 0 out sd none →
      validate e t = .error (invalidJsonMsg out)) ∧
    (∀ out sd m, e (EngineRequest.validateCmd t) = .completed 0 out sd (some (.err m)) →
      validate e t = .error (engineErrMsg m)) ∧
    (∀ out sd d, e (EngineRequest.validateCmd t) = .completed 0 out sd (some (.ok d)) →
      validate e t = .ok d) := by
  refine ⟨?_, ?_, ?_, ?_, ?_⟩
  · intro m h; unfold validate callEngine; rw [h]
  · intro st out sd j h hst; unfold validate callEngine; rw [h]; simp [hst]
  · intro out sd h; unfold validate callEngine; rw [h]; simp
  · intro out sd m h; unfold validate callEngine; rw [h]; simp
  · intro out sd d h; unfold validate callEngine; rw [h]; simp

/-- C1 witness: the amended theorem applied to a concrete failing engine. -/
theorem validate_outcomes_witness :
    validate (fun _ => ProcOutcome.spawnFailed "boom") tEx
      = Except.error (spawnErrMsg "boom") :=
  (validate_outcomes (fun _ => ProcOutcome.spawnFailed "boom") tEx).1 "boom" rfl

/-- C2: solve is a function of the request built from template and inventory
alone.  Any two engine behaviours that agree on that single request give the
same result, so repeated calls with identical inputs return identical
SolvedScheduleResult values; no other state influences the output. -/
theorem solve_request_determined
    (e₁ e₂ : EngineRequest → ProcOutcome SolvedScheduleResult)
    (t : ScheduleInput) (inv : Option InventoryMap)
    (h : e₁ (EngineRequest.solveCmd t inv) = e₂ (EngineRequest.solveCmd t inv)) :
    solve e₁ t inv = solve e₂ t inv := by
  unfold solve; rw [h]

/-- C2 witness: two engine behaviours differing away from the solve request
still yield equal solve results. -/
theorem solve_request_determined_witness :
    solve engineA tEx none = solve engineB tEx none :=
  solve_request_determined engineA engineB tEx none rfl

/-- C3: the wire format of the engine boundary.  solve sends the solve
request carrying the inventory exactly as given (null when omitted) and
validate sends the request without an inventory field; the call returns the
data of the response if and only if the process exits with code zero and its
stdout parses as an ok response; in every other case an error carrying the
diagnostic text is raised. -/
theorem engine_wire_format :
    (∀ (e : EngineRequest → ProcOutcome SolvedScheduleResult) (t : ScheduleInput)
        (inv : Option InventoryMap),
      solve e t inv = callEngine (e (EngineRequest.solveCmd t inv))) ∧
    (∀ (e : EngineRequest → ProcOutcome ValidationResultData) (t : ScheduleInput),
      validate e t = callEngine (e (EngineRequest.validateCmd t))) ∧
    (∀ (T : Type) (pr : ProcOutcome T) (d : T),
      callEngine pr = .ok d ↔
        ∃ out sd, pr = .completed 0 out sd (some (.ok d))) ∧
    (∀ (T : Type) (m : String),
      callEngine (ProcOutcome.spawnFailed m : ProcOutcome T) = .error (spawnErrMsg m)) ∧
    (∀ (T : Type) (st : Int) (out sd : String) (j : Option (EngineResponse T)), st ≠ 0 →
      callEngine (ProcOutcome.completed st out sd j) = .error (exitErrMsg st out sd)) ∧
    (∀ (T : Type) (out sd : String),
      callEngine (ProcOutcome.completed 0 out sd (none : Option (EngineResponse T)))
        = .error (invalidJsonMsg out)) ∧
    (∀ (T : Type) (out sd m : String),
      callEngine (ProcOutcome.completed 0 out sd (some (EngineResponse.err m : EngineResponse T)))
        = .error (engineErrMsg m)) := by
  refine ⟨fun e t inv => rfl, fun e t => rfl, ?_, fun T m => rfl, ?_, ?_, ?_⟩
  · intro T pr d
    cases pr with
    | spawnFailed m => simp [callEngine]
    | completed st out sd j =>
      by_cases hst : st = 0
      · subst hst
        cases j with
        | none => simp [callEngine]
        | some resp =>
          cases resp with
          | ok x => simp [callEngine, eq_comm]
          | err m => simp [callEngine]
      · simp [callEngine, hst]
  · intro T st out sd j hst
    simp [callEngine, hst]
  · intro T out sd
    simp [callEngine]
  · intro T out sd m
    simp [callEngine]

/-- C3 witness: a concrete non-zero exit raises the diagnostic error. -/
theorem engine_wire_format_witness :
    callEngine (ProcOutcome.completed 1 "" "boom" none : ProcOutcome SolvedScheduleResult)
      = Except.error (exitErrMsg 1 "" "boom") :=
  engine_wire_format.2.2.2.2.1 SolvedScheduleResult 1 "" "boom" none (by decide)

/-- C4 counterexample: the validator does not normalize timingPolicy.  A
template whose only step omits timingPolicy is accepted, and the validated
step carries no timingPolicy rather than Asap. -/
theorem timingPolicy_not_defaulted :
    scheduleSchema rawEx = Except.ok tEx ∧
    rawEx.steps.map RawStep.timingPolicy = [none] ∧
    tEx.steps.map Step.timingPolicy = [none] ∧
    tEx.steps.map Step.timingPolicy ≠ [some TimingPolicy.Asap] :=
  ⟨rfl, rfl, rfl, by decide⟩

/-- C4 amended: for every raw object accepted by the schema, omitted
collections get their documented defaults (dependencies, resourceNeeds,
tracks, resources become empty lists; an omitted dependencyType becomes
FinishToStart), while an omitted timingPolicy stays absent: the schema does
not normalize it to Asap. -/
theorem scheduleSchema_defaults (raw : RawSchedule) (s : ScheduleInput)
    (h : scheduleSchema raw = .ok s) :
    (raw.tracks = none → s.tracks = []) ∧
    (raw.resources = none → s.resources = []) ∧
    List.Forall₂ (fun (rs : RawStep) (ps : Step) =>
        (rs.dependencies = none → ps.dependencies = []) ∧
        (rs.resourceNeeds = none → ps.resourceNeeds = []) ∧
        (rs.timingPolicy = none → ps.timingPolicy = none) ∧
        List.Forall₂ (fun rd pd => rd.dependencyType = none →
            pd.dependencyType = DependencyType.FinishToStart)
          (rs.dependencies.getD []) ps.dependencies)
      raw.steps s.steps := by
  obtain ⟨-, -, hsteps, htracks, hres, -, -⟩ := scheduleSchema_ok_elim h
  refine ⟨?_, ?_, ?_⟩
  · intro hn
    rw [hn] at htracks
    have h₂ : (Except.ok [] : Except (List String) (List Track)) = .ok s.tracks := htracks
    injection h₂ with h₃
    exact h₃.symm
  · intro hn
    rw [hn] at hres
    have h₂ : (Except.ok [] : Except (List String) (List Resource)) = .ok s.resources := hres
    injection h₂ with h₃
    exact h₃.symm
  · obtain ⟨-, hz⟩ := zStepsField_ok_elim hsteps
    refine (zArray_ok_forall₂ hz).imp ?_
    intro rs ps hps
    obtain ⟨-, -, hdeps, htp, hneeds⟩ := stepSchema_ok_elim hps
    refine ⟨?_, ?_, ?_, ?_⟩
    · intro hn
      rw [hn] at hdeps
      have h₂ : (Except.ok [] : Except (List String) (List StepDependency))
          = .ok ps.dependencies := hdeps
      injection h₂ with h₃
      exact h₃.symm
    · intro hn
      rw [hn] at hneeds
      have h₂ : (Except.ok [] : Except (List String) (List ResourceNeed))
          = .ok ps.resourceNeeds := hneeds
      injection h₂ with h₃
      exact h₃.symm
    · intro hn
      rw [hn] at htp
      have h₂ : (Except.ok none : Except (List String) (Option TimingPolicy))
          = .ok ps.timingPolicy := htp
      injection h₂ with h₃
      exact h₃.symm
    · exact (zArray_ok_forall₂ hdeps).imp
        (fun rd pd hpd => (stepDependencySchema_default hpd).2)

/-- C4 witness: the amended theorem applied to a concrete raw template with
every optional collection omitted. -/
theorem scheduleSchema_defaults_witness : tEx.tracks = [] :=
  (scheduleSchema_defaults rawEx tEx rfl).1 rfl

/-- C5 counterexample: a raw template whose timeConstraint carries both
startTime and endTime passes schema validation, so the validator does not
enforce the mutual-exclusion invariant. -/
theorem both_time_bounds_accepted :
    scheduleSchema rawC5 = Except.ok tC5 ∧
    rawC5.timeConstraint.map RawTimeConstraint.startTime
      = some (some "2026-03-01T09:00") ∧
    rawC5.timeConstraint.map RawTimeConstraint.endTime
      = some (some "2026-03-01T19:00") :=
  ⟨rfl, rfl, rfl⟩

/-- C5 amended: the upstream validator never inspects the timeConstraint:
acceptance of a raw template is independent of that field, so a template
carrying both startTime and endTime is accepted whenever the rest of the
template is, and reaches solve. -/
theorem scheduleSchema_timeConstraint_independent (raw : RawSchedule)
    (tc : Option RawTimeConstraint) :
    isSuccess (scheduleSchema { raw with timeConstraint := tc })
      = isSuccess (scheduleSchema raw) := by
  have htc : ∀ o : Option RawTimeConstraint,
      isSuccess (zOptional timeConstraintSchema o) = true := by
    intro o; cases o <;> rfl
  simp [scheduleSchema, isSuccess_accum2, htc]

/-- C5 witness: a concrete instance of the independence equation. -/
theorem scheduleSchema_timeConstraint_independent_witness :
    isSuccess (scheduleSchema { rawEx with timeConstraint := some ⟨some "a", some "b"⟩ })
      = isSuccess (scheduleSchema rawEx) :=
  scheduleSchema_timeConstraint_independent rawEx (some ⟨some "a", some "b"⟩)

/-- C9: every template accepted by the schema satisfies the documented
bounds: non-empty step ids, integral durationMins at least 1, integral
resource need quantities at least 1, integral resource capacities at least
1; contrapositively, a raw object violating one of these bounds is
rejected. -/
theorem scheduleSchema_bounds (raw : RawSchedule) (s : ScheduleInput)
    (h : scheduleSchema raw = .ok s) :
    (∀ st ∈ raw.steps,
      (1 ≤ st.id.length ∧ st.durationMins.den = 1 ∧ 1 ≤ st.durationMins) ∧
      (∀ n ∈ st.resourceNeeds.getD [], n.quantity.den = 1 ∧ 1 ≤ n.quantity)) ∧
    (∀ r ∈ raw.resources.getD [], r.capacity.den = 1 ∧ 1 ≤ r.capacity) := by
  obtain ⟨-, -, hsteps, -, hres, -, -⟩ := scheduleSchema_ok_elim h
  constructor
  · obtain ⟨-, hz⟩ := zStepsField_ok_elim hsteps
    intro st hst
    obtain ⟨ps, hps⟩ := zArray_ok_mem hz st hst
    obtain ⟨⟨hid, -, hden, hpos⟩, -, -, -, hneeds⟩ := stepSchema_ok_elim hps
    refine ⟨⟨hid, hden, one_le_of_int_pos hden hpos⟩, ?_⟩
    intro n hn
    obtain ⟨pn, hpn⟩ := zArray_ok_mem hneeds n hn
    obtain ⟨⟨hqd, hqp⟩, -⟩ := resourceNeedSchema_ok_elim hpn
    exact ⟨hqd, one_le_of_int_pos hqd hqp⟩
  · intro r hr
    obtain ⟨pr, hpr⟩ := zArray_ok_mem hres r hr
    obtain ⟨⟨-, -, hcd, hcp⟩, -⟩ := resourceSchema_ok_elim hpr
    exact ⟨hcd, one_le_of_int_pos hcd hcp⟩

/-- C9 witness: the bounds theorem applied to a concrete accepted template
with one declared resource. -/
theorem scheduleSchema_bounds_witness :
    rawResEx.capacity.den = 1 ∧ 1 ≤ rawResEx.capacity :=
  (scheduleSchema_bounds rawC9 tC9 rfl).2 rawResEx (by decide)

/-- C10: a raw template with an empty steps array is rejected by the schema
and the issue list carries the message about the one-step minimum; moreover
every accepted template has a non-empty steps list, so solve and validate
are never invoked on a zero-step template. -/
theorem scheduleSchema_min_steps :
    (∀ raw : RawSchedule, raw.steps = [] →
      isSuccess (scheduleSchema raw) = false ∧
      "At least one step is required" ∈ errList (scheduleSchema raw)) ∧
    (∀ (raw : RawSchedule) (s : ScheduleInput),
      scheduleSchema raw = .ok s → s.steps ≠ []) := by
  constructor
  · intro raw hraw
    have hz : zStepsField raw.steps = .error ["At least one step is required"] := by
      rw [hraw]; rfl
    have base : isSuccess (zStepsField raw.steps) = false ∧
        "At least one step is required" ∈ errList (zStepsField raw.steps) := by
      rw [hz]; exact ⟨rfl, by simp [errList]⟩
    unfold scheduleSchema
    exact accum2_propagate_right (accum2_propagate_right (accum2_propagate_left base))
  · intro raw s h
    obtain ⟨-, -, hsteps, -, -, -, -⟩ := scheduleSchema_ok_elim h
    obtain ⟨hlen, hz⟩ := zStepsField_ok_elim hsteps
    have hlen₂ := (zArray_ok_forall₂ hz).length_eq
    intro hnil
    rw [hnil] at hlen₂
    simp only [List.length_nil] at hlen₂
    omega

/-- C10 witness: both parts applied to concrete templates. -/
theorem scheduleSchema_min_steps_witness :
    (isSuccess (scheduleSchema rawEmptySteps) = false ∧
      "At least one step is required" ∈ errList (scheduleSchema rawEmptySteps)) ∧
    tEx.steps ≠ [] :=
  ⟨scheduleSchema_min_steps.1 rawEmptySteps rfl,
   scheduleSchema_min_steps.2 rawEx tEx rfl⟩

/-- C8: evaluation of the override parser at the failing input.  The guards
reject NaN, negative values, an exact zero, and unknown names, but a
fractional value below one half slips through: Math.round turns 0.4 into 0,
so solve is invoked with a zero-valued override, contradicting the stated
guarantee (and the error text of the zero guard itself). -/
theorem makeInventory_fractional_override :
    makeInventory [ovenRes] [RawOverride.pair "Oven" (some (mkRat 2 5))]
      = Except.ok (some [("Oven", 0)]) ∧
    makeInventory [ovenRes] [RawOverride.pair "Oven" (some 0)]
      = Except.error "Resource \"Oven\" cannot be set to 0 (minimum available resources is 1)." ∧
    makeInventory [ovenRes] [RawOverride.pair "Oven" (some (-1))]
      = Except.error "Invalid value for resource \"Oven\". Must be non-negative." ∧
    makeInventory [ovenRes] [RawOverride.pair "Oven" none]
      = Except.error "Invalid value for resource \"Oven\". Must be a number." ∧
    makeInventory [ovenRes] [RawOverride.pair "Mixer" (some 2)]
      = Except.error "Unknown resource \"Mixer\"." :=
  ⟨rfl, rfl, rfl, rfl, rfl⟩
